import Mathlib

/-!
Verification of the clawprint gateway observer (src/src/gateway.rs and
src/src/daemon.rs) against its natural-language specification.

The Rust code is shallowly embedded: the wire data model becomes Lean
inductives, and each stateful loop becomes an explicit step function over
an input trace (the sequence of events the `tokio::select!` arms observe,
in the order they fire).  Machine integers that matter (counters, backoff
seconds, milliseconds) are natural numbers; fallible calls return
`Except`.
-/

set_option autoImplicit false

/-- JSON values, standing in for `serde_json::Value` fields of the wire
messages (the code never inspects these payloads). -/
inductive Json where
  | null : Json
  | bool (b : Bool) : Json
  | num (n : Int) : Json
  | str (s : String) : Json
  | arr (xs : List Json) : Json
  | obj (fields : List (String × Json)) : Json

/-- `ChallengePayload` from gateway.rs: `{ nonce: String, ts: u64 }`. -/
structure ChallengePayload where
  nonce : String
  ts : Nat

/-- `GatewayMessage` from gateway.rs: the tagged union of wire message
kinds, one constructor per Rust enum variant, same fields. -/
inductive GatewayMessage where
  | Connect (role version : String) : GatewayMessage
  | ConnectChallenge (event : String) (payload : ChallengePayload) : GatewayMessage
  | Auth (token nonce : String) : GatewayMessage
  | Connected (session_id : String) : GatewayMessage
  | Subscribe (channels : List String) : GatewayMessage
  | AgentEvent (run_id : String) (event : Json) : GatewayMessage
  | ToolCall (run_id tool : String) (args : Json) (span_id : String) : GatewayMessage
  | ToolResult (run_id span_id : String) (result : Json) (duration_ms : Nat) : GatewayMessage
  | OutputChunk (run_id content : String) : GatewayMessage
  | Presence (timestamp : String) : GatewayMessage
  | Tick (timestamp : String) : GatewayMessage
  | Shutdown (reason : String) : GatewayMessage
  | Error (code message : String) : GatewayMessage
  | Ping : GatewayMessage
  | Pong : GatewayMessage

/-- Whether a wire message is an `Auth{token, nonce}` response. -/
def GatewayMessage.isAuth : GatewayMessage → Bool
  | .Auth _ _ => true
  | _ => false

/-!
## The `run()` event loop (gateway.rs lines 187-246)

`run()` is a `tokio::select!` loop over two sources: the inbound
WebSocket stream and a 30s keep-alive interval.  We embed it as a step
function over the list of events the select observes, in order.  Each
event also carries the outcome of the transport write it may trigger
(`output_tx.send`, pong send, keep-alive send), since those are the
loop's only other effects on control flow.
-/

/-- One firing of a `tokio::select!` arm inside `run()`:
* `text s forwardOk` — `Some(Ok(Message::Text(s)))`; `forwardOk` is whether
  `output_tx.send(..)` succeeds should the text parse;
* `pingFrame pongOk` — `Some(Ok(Message::Ping(..)))`; `pongOk` is whether
  the pong reply send succeeds;
* `closeFrame` — `Some(Ok(Message::Close(..)))`;
* `readErr` — `Some(Err(e))`, a transport-level read error;
* `otherFrame` — any other frame (binary, pong, `None`), the `_ => {}` arm;
* `keepAlive sendOk` — the 30s `ping_interval` tick; `sendOk` is whether
  the outbound `Message::Ping` send succeeds. -/
inductive NetEvent where
  | text (s : String) (forwardOk : Bool) : NetEvent
  | pingFrame (pongOk : Bool) : NetEvent
  | closeFrame : NetEvent
  | readErr : NetEvent
  | otherFrame : NetEvent
  | keepAlive (sendOk : Bool) : NetEvent

/-- How one `run()` call ends: `ok` is `Ok(())` (the loop `break`s),
`fatal` is `return Err(..)` / `?`-propagation, `running` means the input
trace was exhausted with the loop still live. -/
inductive RunOutcome where
  | ok : RunOutcome
  | fatal (msg : String) : RunOutcome
  | running : RunOutcome
deriving DecidableEq

/-- Mutable state of the `run()` loop: the `consecutive_errors` counter,
plus the observable effect traces (messages forwarded to `output_tx`,
`sleep` durations in seconds, pongs sent). -/
structure RunState where
  consecutiveErrors : Nat
  output : List GatewayMessage
  sleeps : List Nat
  pongsSent : Nat

/-- Initial `run()` state: `consecutive_errors = 0`, nothing sent yet. -/
def initRunState : RunState := ⟨0, [], [], 0⟩

/-- One iteration of the `run()` loop body (gateway.rs lines 195-242),
parametrised by the message parser (`serde_json::from_str`).  Returns the
updated state and `some outcome` when the iteration leaves the loop. -/
def runStep (parse : String → Option GatewayMessage) (st : RunState) :
    NetEvent → RunState × Option RunOutcome
  | .text s forwardOk =>
    let st := { st with consecutiveErrors := 0 }
    match parse s with
    | some m =>
      if forwardOk then ({ st with output := st.output ++ [m] }, none)
      else (st, some .ok)
    | none => (st, none)
  | .pingFrame pongOk =>
    if pongOk then ({ st with pongsSent := st.pongsSent + 1 }, none)
    else (st, some (.fatal "pong send failed"))
  | .closeFrame => (st, some .ok)
  | .readErr =>
    let st := { st with consecutiveErrors := st.consecutiveErrors + 1 }
    if st.consecutiveErrors > 5 then (st, some (.fatal "Too many consecutive errors"))
    else ({ st with sleeps := st.sleeps ++ [1] }, none)
  | .otherFrame => (st, none)
  | .keepAlive sendOk =>
    if sendOk then (st, none)
    else (st, some .ok)

/-- The `run()` loop over a finite trace of select events. -/
def runLoop (parse : String → Option GatewayMessage) :
    RunState → List NetEvent → RunState × RunOutcome
  | st, [] => (st, .running)
  | st, e :: rest =>
    match runStep parse st e with
    | (st', none) => runLoop parse st' rest
    | (st', some out) => (st', out)

/-!
## The `connect()` handshake (gateway.rs lines 119-184)

`connect()` sends `Connect{role:"observer", version}`, then performs up
to two `timeout(5s, receive_message())` calls.  We embed it as a function
of the sequence of `receive_message` results (each either a parsed
message, a parse failure — `receive_message` propagates those with `?` —
a closed stream, or a fired timeout) together with the success of each
outbound `send_message` call (numbered in order: 0 is the `Connect`
handshake, 1 is the `Subscribe`).
-/

/-- Result of one `timeout(5s, receive_message())` call inside
`connect()`. -/
inductive RecvResult where
  | msg (m : GatewayMessage) : RecvResult
  | parseFailure : RecvResult
  | closed : RecvResult
  | timedOut : RecvResult

/-- Observable trace of one `connect()` call: the messages passed to
`send_message` in order, the values assigned to `self.session_id` in
order, and the returned result. -/
structure ConnectTrace where
  sent : List GatewayMessage
  sessionAssignments : List String
  result : Except String String

/-- The fixed subscription sent on a successful handshake
(gateway.rs lines 152-158 and 169-175). -/
def subscribeMsg : GatewayMessage :=
  .Subscribe ["agent_events", "tool_calls", "outputs"]

/-- `GatewayClient::connect` (gateway.rs lines 119-184), as a function of
the crate version string, the per-send success flags and the sequence of
receive results.  Note the `ConnectChallenge` arm (lines 137-164): the
code logs the nonce and then — "For MVP: accept any challenge without
auth" — waits directly for `Connected` without sending any `Auth`
response. -/
def connectModel (version : String) (sendOk : Nat → Bool)
    (resps : List RecvResult) : ConnectTrace :=
  let connectMsg : GatewayMessage := .Connect "observer" version
  if sendOk 0 then
    match resps with
    | [] => ⟨[connectMsg], [], .error "Connection closed"⟩
    | r1 :: rest1 =>
      match r1 with
      | .timedOut => ⟨[connectMsg], [], .error "Connection handshake timeout"⟩
      | .parseFailure => ⟨[connectMsg], [], .error "invalid message"⟩
      | .closed => ⟨[connectMsg], [], .error "Connection closed"⟩
      | .msg (.ConnectChallenge _ _) =>
        match rest1 with
        | [] => ⟨[connectMsg], [], .error "Connection closed"⟩
        | r2 :: _ =>
          match r2 with
          | .timedOut => ⟨[connectMsg], [], .error "Auth response timeout"⟩
          | .parseFailure => ⟨[connectMsg], [], .error "invalid message"⟩
          | .closed => ⟨[connectMsg], [], .error "Connection closed"⟩
          | .msg (.Connected sid) =>
            if sendOk 1 then
              ⟨[connectMsg, subscribeMsg], [sid], .ok sid⟩
            else
              ⟨[connectMsg, subscribeMsg], [sid], .error "send failed"⟩
          | .msg _ => ⟨[connectMsg], [], .error "Unexpected response after challenge"⟩
      | .msg (.Connected sid) =>
        if sendOk 1 then
          ⟨[connectMsg, subscribeMsg], [sid], .ok sid⟩
        else
          ⟨[connectMsg, subscribeMsg], [sid], .error "send failed"⟩
      | .msg (.Error code message) =>
        ⟨[connectMsg], [], .error ("Connection error: " ++ code ++ " - " ++ message)⟩
      | .msg _ => ⟨[connectMsg], [], .error "Unexpected response during handshake"⟩
  else
    ⟨[connectMsg], [], .error "send failed"⟩

/-!
## `GatewayClient::new` and the mpsc channel it returns
(gateway.rs lines 107-116)

`new` parses the URL, creates `mpsc::channel::<GatewayMessage>(1000)`,
binds the sender to `_out_tx` — which is dropped when `new` returns —
and hands the receiver back.  We model a tokio mpsc channel by its
capacity, its number of live `Sender` handles and its pending queue; a
`send` is only possible while a live sender exists.
-/

/-- State of a tokio `mpsc` channel: capacity, live `Sender` handles,
buffered messages. -/
structure ChannelState (α : Type) where
  capacity : Nat
  senders : Nat
  pending : List α

/-- `mpsc::channel(capacity)`: one `Sender`, empty buffer. -/
def mkMpscChannel (α : Type) (capacity : Nat) : ChannelState α :=
  ⟨capacity, 1, []⟩

/-- Dropping one `Sender` handle. -/
def ChannelState.dropSender {α : Type} (c : ChannelState α) : ChannelState α :=
  { c with senders := c.senders - 1 }

/-- An operation on the channel by the handle holders: a send (requires a
live sender — with none, no send can happen, modelled as a no-op) or a
receive. -/
inductive ChanOp (α : Type) where
  | send (x : α) : ChanOp α
  | recv : ChanOp α

/-- One channel operation: returns the new state and the message
delivered to the receiver, if any. -/
def chanStep {α : Type} (c : ChannelState α) : ChanOp α → ChannelState α × Option α
  | .send x =>
    if c.senders > 0 then ({ c with pending := c.pending ++ [x] }, none)
    else (c, none)
  | .recv =>
    match c.pending with
    | x :: rest => ({ c with pending := rest }, some x)
    | [] => (c, none)

/-- All messages delivered through the receiver over a sequence of
channel operations. -/
def chanRun {α : Type} : ChannelState α → List (ChanOp α) → List α
  | _, [] => []
  | c, op :: rest =>
    match chanStep c op with
    | (c', some x) => x :: chanRun c' rest
    | (c', none) => chanRun c' rest

/-- The client record of gateway.rs lines 99-103 (`ws_stream` abstracted
to its `Option`-ness). -/
structure GatewayClient where
  url : String
  ws_stream : Option Unit
  session_id : Option String

/-- `GatewayClient::new` (gateway.rs lines 107-116), parametrised by
`Url::parse`.  The only `Sender` (`_out_tx`) is dropped before the
receiver is returned. -/
def GatewayClient.new (parseUrl : String → Option String) (url : String) :
    Except String (GatewayClient × ChannelState GatewayMessage) :=
  match parseUrl url with
  | none => .error "invalid url"
  | some u =>
    let ch := mkMpscChannel GatewayMessage 1000
    let ch := ch.dropSender
    .ok (⟨u, none, none⟩, ch)

/-!
## The daemon reconnect loop (daemon.rs lines 23-145)

`run_daemon` opens the ledger, requires an auth token, records start
metadata, then loops: each iteration runs `run_connection` and reacts to
its outcome.  `run_connection` returns `Err` exactly when
`GatewayClient::new` or `connect()` fails — i.e. the attempt failed
before streaming began — and `Ok(Disconnected)` exactly when the
connection completed its handshake, streamed, and then the event channel
closed; `Ok(Signal)` when the shutdown flag was observed while
streaming.  We embed the loop as a function of the per-attempt outcome
list.
-/

/-- Outcome of one `run_connection` call (daemon.rs lines 154-245):
`fail` is `Err(..)` (the attempt died before entering streaming),
`drop` is `Ok(ShutdownReason::Disconnected)` (handshake completed,
streaming began, then the connection was lost), `signal` is
`Ok(ShutdownReason::Signal)`. -/
inductive ConnOutcome where
  | fail : ConnOutcome
  | drop : ConnOutcome
  | signal : ConnOutcome
deriving DecidableEq

/-- One arm of the `match` on `run_connection`'s result
(daemon.rs lines 75-126), acting on the backoff state `b` (in seconds).
Returns `none` when the loop `break`s (signal), otherwise
`some (delay, b')`: the backoff delay waited out in this arm and the
backoff value left for the next iteration.  The `drop` arm resets the
backoff to 1s before waiting (line 80); both arms then double it, capped
at 60s (lines 102 and 124). -/
def backoffStep (b : Nat) (o : ConnOutcome) : Option (Nat × Nat) :=
  match o with
  | .signal => none
  | .drop =>
    let b := 1
    some (b, min (b * 2) 60)
  | .fail => some (b, min (b * 2) 60)

/-- The sequence of backoff delays (seconds) the reconnect loop waits
out, given the starting backoff and the per-attempt outcomes. -/
def backoffDelays : Nat → List ConnOutcome → List Nat
  | _, [] => []
  | b, o :: rest =>
    match backoffStep b o with
    | none => []
    | some (d, b') => d :: backoffDelays b' rest

/-!
### The interruptible backoff wait (daemon.rs lines 84-95 and 108-118)

The wait loops: check the shutdown flag, check the remaining time, sleep
`min(remaining, 200ms)`, repeat.  We model it over discrete
milliseconds; `shutdownAt` is the instant (relative to the start of the
wait) at which the flag becomes set, if ever.  The result is the elapsed
time at which the wait loop exits.
-/

/-- Whether the shutdown flag reads `true` at `elapsed` ms into the
wait. -/
def shutdownSeen (shutdownAt : Option Nat) (elapsed : Nat) : Bool :=
  match shutdownAt with
  | some t => decide (t ≤ elapsed)
  | none => false

/-- The backoff wait loop of daemon.rs lines 86-95 (identical at
108-118): poll the shutdown flag, stop when the deadline is reached,
otherwise sleep `min(remaining, 200)` ms.  Returns the total time slept
before exiting. -/
def waitLoop (shutdownAt : Option Nat) (remaining elapsed : Nat) : Nat :=
  if shutdownSeen shutdownAt elapsed then elapsed
  else if remaining = 0 then elapsed
  else
    waitLoop shutdownAt (remaining - min remaining 200) (elapsed + min remaining 200)
termination_by remaining
decreasing_by omega

/-!
### `run_daemon` as an action trace
-/

/-- The externally visible actions `run_daemon` performs, in order. -/
inductive DaemonAction where
  | ledgerOpen (path : String) (batchSize : Nat) : DaemonAction
  | setMeta (key value : String) : DaemonAction
  | connectAttempt : DaemonAction
  | wait (seconds : Nat) : DaemonAction
  | flush : DaemonAction
  | report (totalEvents sizeBytes : Nat) : DaemonAction
deriving DecidableEq

/-- `Config` consumed by `run_daemon` (the fields daemon.rs reads). -/
structure Config where
  gateway_url : String
  auth_token : Option String
  output_dir : String
  batch_size : Nat
  flush_interval_ms : Nat
  redact_secrets : Bool

/-- The reconnect loop body (daemon.rs lines 61-127) as an action trace:
one `connectAttempt` per iteration, then the backoff wait dictated by
`backoffStep`; a `signal` outcome (or, equivalently, the shutdown flag
observed at the top of the loop or after the wait) ends the loop. -/
def daemonLoop : Nat → List ConnOutcome → List DaemonAction
  | _, [] => []
  | b, o :: rest =>
    DaemonAction.connectAttempt ::
      match backoffStep b o with
      | none => []
      | some (d, b') => DaemonAction.wait d :: daemonLoop b' rest

/-- `run_daemon` (daemon.rs lines 23-145).  The Ledger's own code is not
under src/; its operations are abstracted to their success flags
(`openOk`, `metaOk` for every `set_meta`, `flushOk`) and to the counters
it reports at shutdown (`totalEvents`, `sizeBytes`), following the
spec's Ledger interface (open / set_meta / flush / total_events /
storage_size_bytes, each fallible except the counters).  `startTime` and
`stopTime` stand for the two `chrono::Utc::now()` reads.  Returns the
action trace and the call's result. -/
def runDaemon (cfg : Config) (openOk metaOk flushOk : Bool)
    (startTime stopTime : String) (totalEvents sizeBytes : Nat)
    (outcomes : List ConnOutcome) : List DaemonAction × Except String Unit :=
  if openOk then
    let acts := [DaemonAction.ledgerOpen cfg.output_dir cfg.batch_size]
    match cfg.auth_token with
    | none =>
      (acts, .error "No auth token provided. Use --token or set gateway.auth.token in ~/.openclaw/openclaw.json")
    | some _ =>
      if metaOk then
        let acts := acts ++
          [DaemonAction.setMeta "daemon_started_at" startTime,
           DaemonAction.setMeta "gateway_url" cfg.gateway_url]
        let acts := acts ++ daemonLoop 1 outcomes
        if flushOk then
          if metaOk then
            (acts ++
              [DaemonAction.flush,
               DaemonAction.setMeta "daemon_stopped_at" stopTime,
               DaemonAction.report totalEvents sizeBytes],
             .ok ())
          else (acts ++ [DaemonAction.flush], .error "set_meta failed")
        else (acts, .error "flush failed")
      else (acts, .error "set_meta failed")
  else ([], .error "ledger open failed")

/-!
## Helper lemmas about the `run()` loop
-/

/-- `runStep` never exits the loop with the `running` marker (that marker
only denotes an exhausted input trace). -/
lemma runStep_some_ne_running (parse : String → Option GatewayMessage)
    (st : RunState) (e : NetEvent) (st' : RunState) (o : RunOutcome)
    (h : runStep parse st e = (st', some o)) : o ≠ RunOutcome.running := by
  cases e <;> simp only [runStep] at h <;> (try split at h) <;> (try split at h) <;>
    simp_all <;> (obtain ⟨-, h2⟩ := h; subst h2; decide)

/-- Splitting a `run()` trace: if the loop is still live after `xs`, the
trace `xs ++ ys` continues from the reached state. -/
lemma runLoop_append (parse : String → Option GatewayMessage)
    (xs ys : List NetEvent) :
    ∀ st st', runLoop parse st xs = (st', RunOutcome.running) →
      runLoop parse st (xs ++ ys) = runLoop parse st' ys := by
  induction xs with
  | nil =>
    intro st st' h
    simp only [runLoop] at h
    have hst : st = st' := congrArg Prod.fst h
    subst hst
    rfl
  | cons e xs ih =>
    intro st st' h
    rcases hs : runStep parse st e with ⟨st1, o⟩
    cases o with
    | none =>
      have h' : runLoop parse st1 xs = (st', RunOutcome.running) := by
        rw [runLoop, hs] at h
        exact h
      rw [List.cons_append, runLoop, hs]
      exact ih st1 st' h'
    | some out =>
      rw [runLoop, hs] at h
      have hout : out = RunOutcome.running := congrArg Prod.snd h
      exact absurd hout (runStep_some_ne_running parse st e st1 out hs)

/-!
## Claims C1, C3, C4
-/

/-- C1 (counterexample): the claim says that whenever the first handshake
response is a `ConnectChallenge{nonce}`, `connect()` sends an
`Auth{token, nonce}` response before waiting for `Connected`.  On the
code this is false: in the concrete handshake below the first response is
a challenge (nonce "abc"), the handshake completes with `Connected{s1}`,
yet no `Auth` message appears among the messages `connect()` sent —
the MVP code skips the auth response entirely. -/
theorem connect_challenge_no_auth_cex :
    (connectModel "0.1.0" (fun _ => true)
      [RecvResult.msg (.ConnectChallenge "connect.challenge" ⟨"abc", 0⟩),
       RecvResult.msg (.Connected "s1")]).result = Except.ok "s1"
    ∧ ((connectModel "0.1.0" (fun _ => true)
      [RecvResult.msg (.ConnectChallenge "connect.challenge" ⟨"abc", 0⟩),
       RecvResult.msg (.Connected "s1")]).sent.all (fun m => !m.isAuth)) = true := by
  exact ⟨rfl, rfl⟩

/-- C1 (amended): when the first handshake response is a
`ConnectChallenge{nonce}`, `connect()` sends no `Auth` response at all
(the MVP accepts any challenge); it waits directly for the subsequent
`Connected{sessionId}` (bounded by a second timeout) and, when that
arrives and the sends succeed, returns the session id. -/
theorem connect_challenge_waits_without_auth
    (version : String) (sendOk : Nat → Bool) (ev : String)
    (payload : ChallengePayload) (rest : List RecvResult) :
    ((connectModel version sendOk
        (RecvResult.msg (.ConnectChallenge ev payload) :: rest)).sent.all
      (fun m => !m.isAuth)) = true
    ∧ (∀ sid rest2, sendOk 0 = true → sendOk 1 = true →
        (connectModel version sendOk
          (RecvResult.msg (.ConnectChallenge ev payload)
            :: RecvResult.msg (.Connected sid) :: rest2)).result = Except.ok sid) := by
  constructor
  · by_cases h0 : sendOk 0
    · simp only [connectModel, if_pos h0]
      cases rest with
      | nil => rfl
      | cons r2 rest2 =>
        cases r2 with
        | msg m2 =>
          cases m2 <;>
            first
            | rfl
            | (by_cases h1 : sendOk 1 <;>
                simp [h1, subscribeMsg, GatewayMessage.isAuth])
        | parseFailure => rfl
        | closed => rfl
        | timedOut => rfl
    · simp [connectModel, h0, GatewayMessage.isAuth]
  · intro sid rest2 h0 h1
    simp [connectModel, h0, h1]

/-- Witness for `connect_challenge_waits_without_auth` at a concrete
challenge handshake. -/
theorem connect_challenge_waits_without_auth_witness :
    ((connectModel "0.1.0" (fun _ => true)
        (RecvResult.msg (.ConnectChallenge "c" ⟨"abc", 7⟩)
          :: [RecvResult.msg (.Connected "s1")])).sent.all
      (fun m => !m.isAuth)) = true
    ∧ (connectModel "0.1.0" (fun _ => true)
        (RecvResult.msg (.ConnectChallenge "c" ⟨"abc", 7⟩)
          :: RecvResult.msg (.Connected "s1") :: [])).result = Except.ok "s1" := by
  have h := connect_challenge_waits_without_auth "0.1.0" (fun _ => true) "c"
    ⟨"abc", 7⟩ [RecvResult.msg (.Connected "s1")]
  exact ⟨h.1, h.2 "s1" [] rfl rfl⟩

/-- C3 (counterexample): the claim says that if sending the periodic
keep-alive ping fails, `run()` terminates with an error.  On the code
this is false: a failed keep-alive send `break`s out of the loop and
`run()` then returns `Ok(())` — here concretely, the outcome is
`RunOutcome.ok`, not a `fatal` error. -/
theorem keepalive_failure_returns_ok_cex :
    runLoop (fun _ => none) initRunState [NetEvent.keepAlive false]
      = (initRunState, RunOutcome.ok) := by
  rfl

/-- C3 (amended): if sending the periodic outbound keep-alive ping fails,
the `run()` loop terminates immediately — but with success (`Ok(())`),
not with an error: for any trace after which the loop is still live, a
failed keep-alive send ends the call with `RunOutcome.ok` and no further
state change. -/
theorem keepalive_send_failure_breaks_with_ok
    (parse : String → Option GatewayMessage) (pre : List NetEvent)
    (st : RunState)
    (h : runLoop parse initRunState pre = (st, RunOutcome.running)) :
    runLoop parse initRunState (pre ++ [NetEvent.keepAlive false])
      = (st, RunOutcome.ok) := by
  rw [runLoop_append parse pre [NetEvent.keepAlive false] initRunState st h]
  rfl

/-- Witness for `keepalive_send_failure_breaks_with_ok` on the empty
prefix. -/
theorem keepalive_send_failure_breaks_with_ok_witness :
    runLoop (fun _ => some GatewayMessage.Ping) initRunState
      ([] ++ [NetEvent.keepAlive false]) = (initRunState, RunOutcome.ok) := by
  exact keepalive_send_failure_breaks_with_ok (fun _ => some GatewayMessage.Ping)
    [] initRunState rfl

/-- C4: an inbound text frame that does not parse as a `GatewayMessage`
is dropped — the loop stays live, nothing is forwarded to the output
channel, no error is returned — and a valid message arriving right after
is parsed and forwarded to the output channel as usual. -/
theorem malformed_frame_dropped_then_valid_forwarded
    (parse : String → Option GatewayMessage) (pre : List NetEvent)
    (st : RunState) (s t : String) (m : GatewayMessage)
    (hrun : runLoop parse initRunState pre = (st, RunOutcome.running))
    (hs : parse s = none) (ht : parse t = some m) :
    runLoop parse initRunState (pre ++ [NetEvent.text s true, NetEvent.text t true])
      = ({ st with consecutiveErrors := 0, output := st.output ++ [m] },
         RunOutcome.running) := by
  rw [runLoop_append parse pre [NetEvent.text s true, NetEvent.text t true]
    initRunState st hrun]
  simp [runLoop, runStep, hs, ht]

/-- Witness for `malformed_frame_dropped_then_valid_forwarded`: a
garbage frame followed by a valid `Tick{"t1"}`; exactly the tick is
forwarded. -/
theorem malformed_frame_dropped_then_valid_forwarded_witness :
    runLoop (fun s => if s = "tick" then some (GatewayMessage.Tick "t1") else none)
      initRunState
      ([] ++ [NetEvent.text "garbage" true, NetEvent.text "tick" true])
      = ({ initRunState with consecutiveErrors := 0, output := initRunState.output ++ [GatewayMessage.Tick "t1"] },
         RunOutcome.running) := by
  exact malformed_frame_dropped_then_valid_forwarded
    (fun s => if s = "tick" then some (GatewayMessage.Tick "t1") else none)
    [] initRunState "garbage" "tick" (GatewayMessage.Tick "t1") rfl rfl rfl

/-!
## Claim C5: the consecutive-read-error counter
-/

/-- `runLoop` on a cons whose head keeps the loop alive. -/
lemma runLoop_cons_continue (parse : String → Option GatewayMessage)
    (st : RunState) (e : NetEvent) (rest : List NetEvent) (st' : RunState)
    (h : runStep parse st e = (st', none)) :
    runLoop parse st (e :: rest) = runLoop parse st' rest := by
  rw [runLoop, h]

/-- `runLoop` on a cons whose head leaves the loop. -/
lemma runLoop_cons_exit (parse : String → Option GatewayMessage)
    (st : RunState) (e : NetEvent) (rest : List NetEvent) (st' : RunState)
    (out : RunOutcome) (h : runStep parse st e = (st', some out)) :
    runLoop parse st (e :: rest) = (st', out) := by
  rw [runLoop, h]

/-- A read error while the incremented counter stays at or below the
threshold: increment, record a 1s sleep, keep looping. -/
lemma runStep_readErr_le (parse : String → Option GatewayMessage)
    (ce : Nat) (out : List GatewayMessage) (sl : List Nat) (pg : Nat)
    (h : ce + 1 ≤ 5) :
    runStep parse ⟨ce, out, sl, pg⟩ NetEvent.readErr
      = (⟨ce + 1, out, sl ++ [1], pg⟩, none) := by
  simp only [runStep]
  rw [if_neg (by omega)]

/-- A read error that pushes the counter over the threshold: increment
and return the fatal error, with no sleep. -/
lemma runStep_readErr_gt (parse : String → Option GatewayMessage)
    (ce : Nat) (out : List GatewayMessage) (sl : List Nat) (pg : Nat)
    (h : 5 < ce + 1) :
    runStep parse ⟨ce, out, sl, pg⟩ NetEvent.readErr
      = (⟨ce + 1, out, sl, pg⟩, some (RunOutcome.fatal "Too many consecutive errors")) := by
  simp only [runStep]
  rw [if_pos (by omega)]

/-- Behaviour of the `run()` loop on `n` consecutive read errors from a
counter value `ce ≤ 5`: below the threshold every error adds a 1s sleep
and the loop keeps running; past it, the loop dies with the fatal error,
having slept once per sub-threshold error. -/
lemma runLoop_readErr_replicate (parse : String → Option GatewayMessage) :
    ∀ (n ce : Nat) (out : List GatewayMessage) (sl : List Nat) (pg : Nat),
      ce ≤ 5 →
      (ce + n ≤ 5 →
        runLoop parse ⟨ce, out, sl, pg⟩ (List.replicate n NetEvent.readErr)
          = (⟨ce + n, out, sl ++ List.replicate n 1, pg⟩, RunOutcome.running))
      ∧ (5 < ce + n →
        runLoop parse ⟨ce, out, sl, pg⟩ (List.replicate n NetEvent.readErr)
          = (⟨6, out, sl ++ List.replicate (5 - ce) 1, pg⟩,
             RunOutcome.fatal "Too many consecutive errors")) := by
  intro n
  induction n with
  | zero =>
    intro ce out sl pg hce
    refine ⟨fun _ => ?_, fun h => absurd h (by omega)⟩
    simp [runLoop]
  | succ n ih =>
    intro ce out sl pg hce
    constructor
    · intro h
      rw [List.replicate_succ,
        runLoop_cons_continue parse _ _ _ _ (runStep_readErr_le parse ce out sl pg (by omega)),
        (ih (ce + 1) out (sl ++ [1]) pg (by omega)).1 (by omega)]
      have h1 : ce + 1 + n = ce + (n + 1) := by omega
      rw [h1, List.append_assoc, List.singleton_append, ← List.replicate_succ]
    · intro h
      rcases Nat.lt_or_ge 5 (ce + 1) with h6 | h6
      · rw [List.replicate_succ,
          runLoop_cons_exit parse _ _ _ _ _ (runStep_readErr_gt parse ce out sl pg h6)]
        have hce5 : ce = 5 := by omega
        subst hce5
        simp
      · rw [List.replicate_succ,
          runLoop_cons_continue parse _ _ _ _ (runStep_readErr_le parse ce out sl pg h6),
          (ih (ce + 1) out (sl ++ [1]) pg (by omega)).2 (by omega)]
        have h5 : 5 - ce = 5 - (ce + 1) + 1 := by omega
        rw [List.append_assoc, List.singleton_append, ← List.replicate_succ, h5]

/-- C5 (counterexample): the claim says `run()` returns an error exactly
when the consecutive-read-error counter exceeds 5.  On the code this is
false: an inbound WebSocket `Ping` whose pong reply fails to send makes
`run()` return an error (the `?` on the pong send) while the counter is
still 0 — concretely below, the final state is unchanged
(`consecutive_errors = 0`) yet the outcome is a fatal error. -/
theorem run_error_without_counter_cex :
    runLoop (fun _ => none) initRunState [NetEvent.pingFrame false]
      = (initRunState, RunOutcome.fatal "pong send failed") := by
  rfl

/-- C5 (amended): every transport-level read error increments the
consecutive-error counter; a successfully received text frame resets it
to 0; along the read-error path `run()` returns an error exactly when
the counter exceeds the threshold of 5 (from a reset counter, `n ≤ 5`
consecutive errors leave the loop running, `n > 5` is fatal), and every
individual error below the threshold is followed by a 1-second pause
before the next read — though `run()` can also fail for reasons other
than the counter, e.g. a failed pong reply to an inbound ping. -/
theorem read_error_counter_policy
    (parse : String → Option GatewayMessage) (st : RunState) (n : Nat)
    (h0 : st.consecutiveErrors = 0) :
    (∀ (st2 : RunState) (s : String) (fwd : Bool),
        ((runStep parse st2 (NetEvent.text s fwd)).1).consecutiveErrors = 0)
    ∧ (∀ st2 : RunState, ((runStep parse st2 NetEvent.readErr).1).consecutiveErrors
        = st2.consecutiveErrors + 1)
    ∧ (n ≤ 5 → runLoop parse st (List.replicate n NetEvent.readErr)
        = ({ st with consecutiveErrors := n, sleeps := st.sleeps ++ List.replicate n 1 },
           RunOutcome.running))
    ∧ (5 < n → runLoop parse st (List.replicate n NetEvent.readErr)
        = ({ st with consecutiveErrors := 6, sleeps := st.sleeps ++ List.replicate 5 1 },
           RunOutcome.fatal "Too many consecutive errors")) := by
  obtain ⟨ce, out, sl, pg⟩ := st
  simp only [RunState.mk.injEq] at h0
  subst h0
  refine ⟨?_, ?_, ?_, ?_⟩
  · intro st2 s fwd
    obtain ⟨ce2, out2, sl2, pg2⟩ := st2
    cases hp : parse s with
    | none => simp [runStep, hp]
    | some m => cases fwd <;> simp [runStep, hp]
  · intro st2
    obtain ⟨a, b, c, d⟩ := st2
    simp only [runStep]
    split <;> rfl
  · intro hn
    have := (runLoop_readErr_replicate parse n 0 out sl pg (by omega)).1 (by omega)
    simpa using this
  · intro hn
    have := (runLoop_readErr_replicate parse n 0 out sl pg (by omega)).2 (by omega)
    simpa using this

/-- Witness for `read_error_counter_policy`: six consecutive read errors
from a fresh loop are fatal after five 1s pauses. -/
theorem read_error_counter_policy_witness :
    runLoop (fun _ => none) initRunState (List.replicate 6 NetEvent.readErr)
      = ({ initRunState with consecutiveErrors := 6, sleeps := List.replicate 5 1 },
         RunOutcome.fatal "Too many consecutive errors") := by
  have h := (read_error_counter_policy (fun _ => none) initRunState 6 rfl).2.2.2
    (by omega)
  simpa [initRunState] using h

/-!
## Claim C2: the reconnect backoff policy
-/

/-- Doubling-then-capping commutes with the capped power form. -/
lemma min_double_cap (b i : Nat) :
    min (min (b * 2) 60 * 2 ^ i) 60 = min (b * 2 * 2 ^ i) 60 := by
  rcases le_total (b * 2) 60 with h | h
  · rw [Nat.min_eq_left h]
  · rw [Nat.min_eq_right h]
    have hp : 1 ≤ 2 ^ i := Nat.one_le_two_pow
    have h1 : 60 ≤ 60 * 2 ^ i := le_mul_of_one_le_right (Nat.zero_le _) hp
    have h2 : 60 ≤ b * 2 * 2 ^ i :=
      le_trans h (le_mul_of_one_le_right (Nat.zero_le _) hp)
    rw [Nat.min_eq_right h1, Nat.min_eq_right h2]

/-- On `n` consecutive connection failures the backoff delays are the
doubling sequence capped at 60s. -/
lemma backoffDelays_replicate_fail :
    ∀ (n b : Nat), b ≤ 60 →
      backoffDelays b (List.replicate n ConnOutcome.fail)
        = (List.range n).map (fun i => min (b * 2 ^ i) 60) := by
  intro n
  induction n with
  | zero => intro b _; simp [backoffDelays]
  | succ n ih =>
    intro b hb
    rw [List.replicate_succ]
    simp only [backoffDelays, backoffStep]
    rw [ih (min (b * 2) 60) (by omega)]
    simp only [min_double_cap]
    rw [List.range_succ_eq_map, List.map_cons, List.map_map]
    congr 1
    · simp [Nat.min_eq_left hb]
    · have hfun : (fun i => min (b * 2 * 2 ^ i) 60)
          = ((fun i => min (b * 2 ^ i) 60) ∘ Nat.succ) := by
        funext i
        simp only [Function.comp_apply, pow_succ]
        congr 1
        ring
      rw [hfun]

/-- Every backoff delay is between 1s and the 60s cap. -/
lemma backoffDelays_bounds :
    ∀ (os : List ConnOutcome) (b : Nat), 1 ≤ b → b ≤ 60 →
      ∀ d ∈ backoffDelays b os, 1 ≤ d ∧ d ≤ 60 := by
  intro os
  induction os with
  | nil => intro b _ _ d hd; simp [backoffDelays] at hd
  | cons o rest ih =>
    intro b h1 h60 d hd
    cases o with
    | fail =>
      simp only [backoffDelays, backoffStep] at hd
      rcases List.mem_cons.mp hd with rfl | hmem
      · exact ⟨h1, h60⟩
      · exact ih (min (b * 2) 60) (by omega) (by omega) d hmem
    | drop =>
      simp only [backoffDelays, backoffStep] at hd
      rcases List.mem_cons.mp hd with rfl | hmem
      · omega
      · exact ih (min (1 * 2) 60) (by omega) (by omega) d hmem
    | signal => simp [backoffDelays, backoffStep] at hd

/-- From any backoff state at least 2s (the state after any completed
loop iteration), a delay equals 1s exactly at the positions whose
connection attempt entered streaming and then dropped. -/
lemma backoffDelays_getD_one :
    ∀ (os : List ConnOutcome) (b : Nat), 2 ≤ b → b ≤ 60 →
      ∀ j, j < (backoffDelays b os).length →
        ((backoffDelays b os).getD j 0 = 1
          ↔ os.getD j ConnOutcome.signal = ConnOutcome.drop) := by
  intro os
  induction os with
  | nil => intro b _ _ j hj; simp [backoffDelays] at hj
  | cons o rest ih =>
    intro b h2 h60 j hj
    cases o with
    | fail =>
      simp only [backoffDelays, backoffStep] at hj ⊢
      cases j with
      | zero =>
        simp only [List.getD_cons_zero]
        constructor
        · intro hb; omega
        · intro hc; cases hc
      | succ j' =>
        simp only [List.getD_cons_succ]
        refine ih (min (b * 2) 60) (by omega) (by omega) j' ?_
        simp only [List.length_cons] at hj
        omega
    | drop =>
      simp only [backoffDelays, backoffStep] at hj ⊢
      cases j with
      | zero => simp
      | succ j' =>
        simp only [List.getD_cons_succ]
        refine ih (min (1 * 2) 60) (by omega) (by omega) j' ?_
        simp only [List.length_cons] at hj
        omega
    | signal => simp [backoffDelays, backoffStep] at hj

/-- C2: in the reconnect loop started with a 1s backoff, (i) `n`
consecutive attempts failing before `Streaming` wait out the delays
min(2^i, 60): 1, 2, 4, 8, 16, 32, 60, 60, ...; (ii) every delay is
between 1s and the 60s cap; (iii) past the initial delay, a delay is
reset to 1s exactly at the attempts that completed handshake, entered
streaming and then dropped (`ConnOutcome.drop`) — a `fail`ed attempt
never yields a 1s delay. -/
theorem backoff_policy_spec (n : Nat) (os : List ConnOutcome) (j : Nat)
    (hj1 : 1 ≤ j) (hj : j < (backoffDelays 1 os).length) :
    backoffDelays 1 (List.replicate n ConnOutcome.fail)
        = (List.range n).map (fun i => min (2 ^ i) 60)
    ∧ (∀ d ∈ backoffDelays 1 os, 1 ≤ d ∧ d ≤ 60)
    ∧ ((backoffDelays 1 os).getD j 0 = 1
        ↔ os.getD j ConnOutcome.signal = ConnOutcome.drop) := by
  refine ⟨?_, backoffDelays_bounds os 1 (by omega) (by omega), ?_⟩
  · have h := backoffDelays_replicate_fail n 1 (by omega)
    simpa using h
  · cases os with
    | nil => simp [backoffDelays] at hj
    | cons o rest =>
      obtain ⟨j', rfl⟩ : ∃ j'', j = j'' + 1 := ⟨j - 1, by omega⟩
      cases o with
      | fail =>
        simp only [backoffDelays, backoffStep, List.getD_cons_succ] at hj ⊢
        refine backoffDelays_getD_one rest (min (1 * 2) 60) (by omega) (by omega) j' ?_
        simp only [List.length_cons] at hj
        omega
      | drop =>
        simp only [backoffDelays, backoffStep, List.getD_cons_succ] at hj ⊢
        refine backoffDelays_getD_one rest (min (1 * 2) 60) (by omega) (by omega) j' ?_
        simp only [List.length_cons] at hj
        omega
      | signal => simp [backoffDelays, backoffStep] at hj

/-- Witness for `backoff_policy_spec`: eight straight failures give
1, 2, 4, 8, 16, 32, 60, 60; on the trace fail-drop-fail, the delay after
the dropped (streaming) connection is the reset 1s. -/
theorem backoff_policy_spec_witness :
    backoffDelays 1 (List.replicate 8 ConnOutcome.fail)
        = (List.range 8).map (fun i => min (2 ^ i) 60)
    ∧ (∀ d ∈ backoffDelays 1 [ConnOutcome.fail, ConnOutcome.drop, ConnOutcome.fail],
        1 ≤ d ∧ d ≤ 60)
    ∧ ((backoffDelays 1
          [ConnOutcome.fail, ConnOutcome.drop, ConnOutcome.fail]).getD 1 0 = 1
        ↔ [ConnOutcome.fail, ConnOutcome.drop,
            ConnOutcome.fail].getD 1 ConnOutcome.signal = ConnOutcome.drop) := by
  exact backoff_policy_spec 8 [ConnOutcome.fail, ConnOutcome.drop, ConnOutcome.fail] 1
    (by decide) (by decide)

/-!
## Claim C6: successful `connect()` subscribes and stores the session id
-/

/-- `connect()` assigns `self.session_id` at most once per attempt, on
any input whatsoever. -/
lemma connectModel_assignments_le_one (version : String) (sendOk : Nat → Bool)
    (resps : List RecvResult) :
    (connectModel version sendOk resps).sessionAssignments.length ≤ 1 := by
  simp only [connectModel]
  repeat' split
  all_goals simp

/-- C6: whenever `connect()` succeeds — directly or via a challenge —
it has sent exactly the `Connect` handshake followed by the `Subscribe`
message with channels `[agent_events, tool_calls, outputs]`, it has
stored exactly the returned session id in `self.session_id`, and (on any
input at all) the session id is assigned at most once per attempt. -/
theorem connect_success_subscribe_and_session (version : String)
    (sendOk : Nat → Bool) (resps : List RecvResult) (sid : String)
    (h : (connectModel version sendOk resps).result = Except.ok sid) :
    ((connectModel version sendOk resps).sent
        = [GatewayMessage.Connect "observer" version, subscribeMsg]
      ∧ (connectModel version sendOk resps).sessionAssignments = [sid])
    ∧ ∀ resps2 : List RecvResult,
        ((connectModel version sendOk resps2).sessionAssignments).length ≤ 1 := by
  refine ⟨?_, fun resps2 => connectModel_assignments_le_one version sendOk resps2⟩
  revert h
  simp only [connectModel]
  repeat' split
  all_goals intro h
  all_goals simp_all

/-- Witness for `connect_success_subscribe_and_session` on a direct
(no-challenge) handshake. -/
theorem connect_success_subscribe_and_session_witness :
    ((connectModel "0.1.0" (fun _ => true) [RecvResult.msg (.Connected "s1")]).sent
        = [GatewayMessage.Connect "observer" "0.1.0", subscribeMsg]
      ∧ (connectModel "0.1.0" (fun _ => true)
          [RecvResult.msg (.Connected "s1")]).sessionAssignments = ["s1"])
    ∧ ∀ resps2 : List RecvResult,
        ((connectModel "0.1.0" (fun _ => true) resps2).sessionAssignments).length ≤ 1 := by
  exact connect_success_subscribe_and_session "0.1.0" (fun _ => true)
    [RecvResult.msg (.Connected "s1")] "s1" rfl

/-!
## Claim C9: the backoff wait observes shutdown promptly
-/

/-- The wait loop exits no later than 200ms after the shutdown instant
(one in-flight sleep chunk at most). -/
lemma waitLoop_le_deadline (t : Nat) :
    ∀ remaining elapsed, waitLoop (some t) remaining elapsed ≤ max elapsed (t + 200) := by
  intro remaining
  induction remaining using Nat.strong_induction_on with
  | _ remaining ih =>
    intro elapsed
    rw [waitLoop]
    by_cases hs : shutdownSeen (some t) elapsed = true
    · rw [if_pos hs]
      exact le_max_left _ _
    · rw [if_neg hs]
      by_cases hr : remaining = 0
      · rw [if_pos hr]
        exact le_max_left _ _
      · rw [if_neg hr]
        have ht : ¬ t ≤ elapsed := by
          simpa [shutdownSeen] using hs
        have hlt : remaining - min remaining 200 < remaining := by omega
        have hrec := ih (remaining - min remaining 200) hlt (elapsed + min remaining 200)
        have hb : elapsed + min remaining 200 ≤ t + 200 := by omega
        omega

/-- The wait loop never sleeps longer than the remaining budget. -/
lemma waitLoop_le_total (shutdownAt : Option Nat) :
    ∀ remaining elapsed, waitLoop shutdownAt remaining elapsed ≤ elapsed + remaining := by
  intro remaining
  induction remaining using Nat.strong_induction_on with
  | _ remaining ih =>
    intro elapsed
    rw [waitLoop]
    by_cases hs : shutdownSeen shutdownAt elapsed = true
    · rw [if_pos hs]; omega
    · rw [if_neg hs]
      by_cases hr : remaining = 0
      · rw [if_pos hr]; omega
      · rw [if_neg hr]
        have hlt : remaining - min remaining 200 < remaining := by omega
        have hrec := ih (remaining - min remaining 200) hlt (elapsed + min remaining 200)
        omega

/-- With no shutdown request the wait runs its full course. -/
lemma waitLoop_none :
    ∀ remaining elapsed, waitLoop none remaining elapsed = elapsed + remaining := by
  intro remaining
  induction remaining using Nat.strong_induction_on with
  | _ remaining ih =>
    intro elapsed
    rw [waitLoop]
    simp only [shutdownSeen, Bool.false_eq_true, if_false]
    by_cases hr : remaining = 0
    · rw [if_pos hr]; omega
    · rw [if_neg hr]
      have hlt : remaining - min remaining 200 < remaining := by omega
      have hrec := ih (remaining - min remaining 200) hlt (elapsed + min remaining 200)
      omega

/-- C9: during any backoff wait of `backoffMs` milliseconds, a shutdown
request raised `t` ms into the wait ends the wait within 200ms of being
raised (sub-second, one 200ms sleep chunk at most) and never after the
full window; without a shutdown request the full `backoffMs` elapses —
so the wait is interruptible polling, not a blind sleep. -/
theorem backoff_wait_shutdown_bounded (backoffMs t : Nat) :
    waitLoop (some t) backoffMs 0 ≤ t + 200
    ∧ waitLoop (some t) backoffMs 0 ≤ backoffMs
    ∧ waitLoop none backoffMs 0 = backoffMs := by
  refine ⟨?_, ?_, ?_⟩
  · have h := waitLoop_le_deadline t backoffMs 0
    omega
  · have h := waitLoop_le_total (some t) backoffMs 0
    omega
  · have h := waitLoop_none backoffMs 0
    omega

/-!
## Claim C10: the receiver returned by `GatewayClient::new` is closed
-/

/-- A channel with no live sender and an empty buffer never delivers a
message, whatever the handle holders do. -/
lemma chanRun_closed_empty (cap : Nat) :
    ∀ ops : List (ChanOp GatewayMessage),
      chanRun (⟨cap, 0, []⟩ : ChannelState GatewayMessage) ops = [] := by
  intro ops
  induction ops with
  | nil => rfl
  | cons op rest ih =>
    cases op with
    | send x =>
      simp only [chanRun, chanStep]
      simpa using ih
    | recv =>
      simp only [chanRun, chanStep]
      exact ih

/-- C10: the mpsc receiver handed back by `GatewayClient::new` is closed
from construction — its only `Sender` (`_out_tx`) is dropped before
`new` returns, so the receiver has no live sender, an empty buffer, and
no message is ever delivered through it. -/
theorem new_receiver_closed_no_delivery (parseUrl : String → Option String)
    (url : String) (c : GatewayClient) (rx : ChannelState GatewayMessage)
    (h : GatewayClient.new parseUrl url = Except.ok (c, rx)) :
    rx.senders = 0 ∧ rx.pending = []
    ∧ ∀ ops : List (ChanOp GatewayMessage), chanRun rx ops = [] := by
  unfold GatewayClient.new at h
  cases hp : parseUrl url with
  | none =>
    rw [hp] at h
    cases h
  | some u =>
    rw [hp] at h
    simp only [mkMpscChannel, ChannelState.dropSender, Except.ok.injEq,
      Prod.mk.injEq] at h
    obtain ⟨-, hrx⟩ := h
    subst hrx
    exact ⟨rfl, rfl, fun ops => chanRun_closed_empty 1000 ops⟩

/-- Witness for `new_receiver_closed_no_delivery`: a concrete client,
with a send and a receive attempted on the returned channel. -/
theorem new_receiver_closed_no_delivery_witness :
    chanRun (⟨1000, 0, []⟩ : ChannelState GatewayMessage)
      [ChanOp.send GatewayMessage.Ping, ChanOp.recv] = [] := by
  exact (new_receiver_closed_no_delivery Option.some "ws://localhost:18789"
    ⟨"ws://localhost:18789", none, none⟩ ⟨1000, 0, []⟩ rfl).2.2
    [ChanOp.send GatewayMessage.Ping, ChanOp.recv]

/-!
## Claims C7 and C8: daemon shutdown and startup
-/

/-- C7: however the reconnect loop ends (any outcome sequence), when the
ledger operations succeed `run_daemon` finishes by flushing the Ledger,
writing the `daemon_stopped_at` metadata entry, reporting the final
counters (`total_events()` and the storage size it renders
human-readably), in that order, and returns success. -/
theorem daemon_shutdown_flush_report (cfg : Config) (tok : String)
    (startTime stopTime : String) (totalEvents sizeBytes : Nat)
    (outcomes : List ConnOutcome) (htok : cfg.auth_token = some tok) :
    runDaemon cfg true true true startTime stopTime totalEvents sizeBytes outcomes
      = ([DaemonAction.ledgerOpen cfg.output_dir cfg.batch_size,
          DaemonAction.setMeta "daemon_started_at" startTime,
          DaemonAction.setMeta "gateway_url" cfg.gateway_url]
          ++ daemonLoop 1 outcomes
          ++ [DaemonAction.flush,
              DaemonAction.setMeta "daemon_stopped_at" stopTime,
              DaemonAction.report totalEvents sizeBytes],
         Except.ok ()) := by
  simp [runDaemon, htok, List.append_assoc]

/-- Witness for `daemon_shutdown_flush_report` with one streaming
session ended by a shutdown signal. -/
theorem daemon_shutdown_flush_report_witness :
    runDaemon ⟨"ws://gw", some "tok", "/tmp/ledger", 100, 500, false⟩ true true true
      "2026-01-01T00:00:00Z" "2026-01-02T00:00:00Z" 42 2048 [ConnOutcome.signal]
      = ([DaemonAction.ledgerOpen "/tmp/ledger" 100,
          DaemonAction.setMeta "daemon_started_at" "2026-01-01T00:00:00Z",
          DaemonAction.setMeta "gateway_url" "ws://gw",
          DaemonAction.connectAttempt,
          DaemonAction.flush,
          DaemonAction.setMeta "daemon_stopped_at" "2026-01-02T00:00:00Z",
          DaemonAction.report 42 2048],
         Except.ok ()) := by
  have h := daemon_shutdown_flush_report
    ⟨"ws://gw", some "tok", "/tmp/ledger", 100, 500, false⟩ "tok"
    "2026-01-01T00:00:00Z" "2026-01-02T00:00:00Z" 42 2048 [ConnOutcome.signal] rfl
  simpa [daemonLoop, backoffStep] using h

/-- C8: a `Config` whose `auth_token` is absent makes `run_daemon` fail
at startup: once the ledger opens, it returns the error naming the
missing token, and no connection attempt ever happens. -/
theorem missing_auth_token_startup_failure (cfg : Config)
    (metaOk flushOk : Bool) (startTime stopTime : String)
    (totalEvents sizeBytes : Nat) (outcomes : List ConnOutcome)
    (htok : cfg.auth_token = none) :
    runDaemon cfg true metaOk flushOk startTime stopTime totalEvents sizeBytes outcomes
      = ([DaemonAction.ledgerOpen cfg.output_dir cfg.batch_size],
         Except.error "No auth token provided. Use --token or set gateway.auth.token in ~/.openclaw/openclaw.json")
    ∧ DaemonAction.connectAttempt
        ∉ (runDaemon cfg true metaOk flushOk startTime stopTime totalEvents
            sizeBytes outcomes).1 := by
  have heq : runDaemon cfg true metaOk flushOk startTime stopTime totalEvents
      sizeBytes outcomes
      = ([DaemonAction.ledgerOpen cfg.output_dir cfg.batch_size],
         Except.error "No auth token provided. Use --token or set gateway.auth.token in ~/.openclaw/openclaw.json") := by
    simp [runDaemon, htok]
  refine ⟨heq, ?_⟩
  rw [heq]
  simp

/-- Witness for `missing_auth_token_startup_failure` on a concrete
token-less config. -/
theorem missing_auth_token_startup_failure_witness :
    runDaemon ⟨"ws://gw", none, "/tmp/ledger", 100, 500, false⟩ true true true
      "t0" "t1" 0 0 [ConnOutcome.fail]
      = ([DaemonAction.ledgerOpen "/tmp/ledger" 100],
         Except.error "No auth token provided. Use --token or set gateway.auth.token in ~/.openclaw/openclaw.json")
    ∧ DaemonAction.connectAttempt
        ∉ (runDaemon ⟨"ws://gw", none, "/tmp/ledger", 100, 500, false⟩ true true true
            "t0" "t1" 0 0 [ConnOutcome.fail]).1 := by
  exact missing_auth_token_startup_failure
    ⟨"ws://gw", none, "/tmp/ledger", 100, 500, false⟩ true true "t0" "t1" 0 0
    [ConnOutcome.fail] rfl
